import Mathlib

/-!
Verification of the procedural test-image generator in
`examples/generate_test_images.py`.

The script builds small grayscale images (checkerboards, gradients,
concentric circles, a logo, a photo-like scene, text labels and a
QR-code-like noise grid) using the Pillow drawing library.  This file
gives a shallow embedding of each generator:

* a `PixelBuffer` is the width, the height and the intensity function of
  an `'L'`-mode image (8-bit grayscale, 0 = black, 255 = white);
* every Pillow drawing call becomes a transformer on the intensity
  function; `draw.rectangle(..., fill=v)` paints the inclusive bounding
  box exactly as Pillow documents it, while the curved primitives
  (ellipse outlines, the triangle of the photo scene, text glyphs) are
  rasterized inside Pillow itself, so for those the transformer is an
  explicit geometric model of that external capability — no claim below
  depends on the pixels such a primitive paints;
* Python `range(start, stop, step)` becomes an explicit list;
* the float expressions of the gradient generator are embedded with
  exact rational arithmetic, `int()` being truncation toward zero;
* the `random` module is embedded as an explicit Mersenne-Twister state
  threaded through the computation, with CPython's seeding and
  `random.random()` construction.
-/

namespace EPaper

/-- A grayscale image: `pix x y` is the 8-bit intensity at column `x`,
row `y`; it is meaningful for `x < width` and `y < height`. -/
structure PixelBuffer where
  width : ℕ
  height : ℕ
  pix : ℕ → ℕ → ℕ

/-- Pillow `draw.rectangle([x0, y0, x1, y1], fill=v)`: paint every pixel
of the inclusive bounding box with intensity `v`.  Coordinates are
integers (Python ints); pixels outside the canvas are simply never
queried. -/
def fillRectF (x0 y0 x1 y1 : ℤ) (v : ℕ) (p : ℕ → ℕ → ℕ) : ℕ → ℕ → ℕ :=
  fun px py =>
    if x0 ≤ (px : ℤ) ∧ (px : ℤ) ≤ x1 ∧ y0 ≤ (py : ℤ) ∧ (py : ℤ) ≤ y1 then v
    else p px py

/-- Pillow `draw.rectangle([x0, y0, x1, y1], outline=v, width=w)`:
paint the border band of thickness `w` just inside the inclusive
bounding box.  Models the external rasterizer. -/
def outlineRectF (x0 y0 x1 y1 : ℤ) (v w : ℕ) (p : ℕ → ℕ → ℕ) : ℕ → ℕ → ℕ :=
  fun px py =>
    if (x0 ≤ (px : ℤ) ∧ (px : ℤ) ≤ x1 ∧ y0 ≤ (py : ℤ) ∧ (py : ℤ) ≤ y1) ∧
        ((px : ℤ) < x0 + w ∨ x1 - w < (px : ℤ) ∨ (py : ℤ) < y0 + w ∨ y1 - w < (py : ℤ)) then v
    else p px py

/-- Pillow `draw.ellipse([x0, y0, x1, y1], fill=f, outline=o, width=w)`.
Models the external rasterizer geometrically: using doubled coordinates
centred on the bounding box, a pixel is inside the ellipse when it
satisfies the implicit equation, and on the outline ring when it is
inside the ellipse but outside the ellipse shrunk by the stroke
width. -/
def ellipseF (x0 y0 x1 y1 : ℤ) (fill outline : Option ℕ) (w : ℕ) (p : ℕ → ℕ → ℕ) :
    ℕ → ℕ → ℕ :=
  fun px py =>
    let fx : ℤ := 2 * px - (x0 + x1)
    let fy : ℤ := 2 * py - (y0 + y1)
    let a : ℤ := x1 - x0
    let b : ℤ := y1 - y0
    let ain : ℤ := a - 4 * w
    let bin : ℤ := b - 4 * w
    let inside := fx ^ 2 * b ^ 2 + fy ^ 2 * a ^ 2 ≤ a ^ 2 * b ^ 2
    let insideInner := fx ^ 2 * bin ^ 2 + fy ^ 2 * ain ^ 2 ≤ ain ^ 2 * bin ^ 2 ∧ 0 ≤ ain ∧ 0 ≤ bin
    match fill, outline with
    | some fv, some ov =>
        if inside ∧ ¬insideInner then ov else if insideInner then fv else p px py
    | some fv, none => if inside then fv else p px py
    | none, some ov => if inside ∧ ¬insideInner then ov else p px py
    | none, none => p px py

/-- Pillow `draw.polygon([p1, p2, p3], fill=v)` for a triangle (the only
polygon fill the script draws).  Models the external rasterizer: a pixel
is inside when it lies on one common side of all three edges (integer
cross products). -/
def triangleF (ax ay bx bz cx cy : ℤ) (v : ℕ) (p : ℕ → ℕ → ℕ) : ℕ → ℕ → ℕ :=
  fun px py =>
    let s1 : ℤ := (bx - ax) * ((py : ℤ) - ay) - (bz - ay) * ((px : ℤ) - ax)
    let s2 : ℤ := (cx - bx) * ((py : ℤ) - bz) - (cy - bz) * ((px : ℤ) - bx)
    let s3 : ℤ := (ax - cx) * ((py : ℤ) - cy) - (ay - cy) * ((px : ℤ) - cx)
    if (0 ≤ s1 ∧ 0 ≤ s2 ∧ 0 ≤ s3) ∨ (s1 ≤ 0 ∧ s2 ≤ 0 ∧ s3 ≤ 0) then v
    else p px py

/-- Python `range(start, stop, step)` for a positive step: the list
`[start, start + step, ...]` of all values below `stop`. -/
def pyRange (start stop step : ℕ) : List ℕ :=
  (List.range ((stop - start + step - 1) / step)).map (fun i => start + i * step)

/-- Python `int()` applied to a rational: truncation toward zero. -/
def pyInt (q : ℚ) : ℤ :=
  if q < 0 then -⌊-q⌋ else ⌊q⌋

/-- Python floor division `//` on integers. -/
def pyFloorDiv (a b : ℤ) : ℤ :=
  Int.fdiv a b

/-- The checkerboard generator `create_checkerboard(size, square_size)`:
a white `size × size` canvas; for `y` and `x` ranging over multiples of
`square_size` below `size`, the cell whose grid coordinates sum to an
even number is filled black via
`draw.rectangle([x, y, x + square_size - 1, y + square_size - 1], fill=0)`. -/
def create_checkerboard (size square_size : ℕ) : PixelBuffer :=
  ⟨size, size,
    (pyRange 0 size square_size).foldl
      (fun p y =>
        (pyRange 0 size square_size).foldl
          (fun p x =>
            if (x / square_size + y / square_size) % 2 = 0 then
              fillRectF x y ((x : ℤ) + square_size - 1) ((y : ℤ) + square_size - 1) 0 p
            else p)
          p)
      (fun _ _ => 255)⟩

/-- The per-pixel value of `create_gradient`: the loop body computes
`int((x / width) * 255)` for `'horizontal'`, `int((y / height) * 255)`
for `'vertical'` and `int(((x + y) / (width + height)) * 255)` for any
other direction string, in exact rational arithmetic. -/
def gradientValue (width height : ℕ) (direction : String) (x y : ℕ) : ℕ :=
  if direction = "horizontal" then (pyInt ((x : ℚ) / (width : ℚ) * 255)).toNat
  else if direction = "vertical" then (pyInt ((y : ℚ) / (height : ℚ) * 255)).toNat
  else (pyInt (((x : ℚ) + (y : ℚ)) / ((width : ℚ) + (height : ℚ)) * 255)).toNat

/-- The gradient generator `create_gradient(width, height, direction)`:
a `width × height` image whose every pixel is assigned the ramp value by
the nested loop. -/
def create_gradient (width height : ℕ) (direction : String) : PixelBuffer :=
  ⟨width, height, fun x y => gradientValue width height direction x y⟩

/-- One `draw.ellipse` call as issued by `create_circle_pattern`:
bounding box, optional fill, optional outline intensity and stroke
width, mirroring Pillow's keyword arguments. -/
structure EllipseCmd where
  x0 : ℤ
  y0 : ℤ
  x1 : ℤ
  y1 : ℤ
  fill : Option ℕ
  outline : Option ℕ
  width : ℕ
  deriving DecidableEq

/-- The list of `draw.ellipse` calls issued by
`create_circle_pattern(size)`: with `center = size // 2`, for `r` in
`range(5, center, 10)` the call
`draw.ellipse([center - r, center - r, center + r, center + r], outline=0, width=3)`. -/
def circleCmds (size : ℕ) : List EllipseCmd :=
  (pyRange 5 (size / 2) 10).map
    (fun (r : ℕ) => ⟨((size / 2 : ℕ) : ℤ) - (r : ℤ), ((size / 2 : ℕ) : ℤ) - (r : ℤ),
               ((size / 2 : ℕ) : ℤ) + (r : ℤ), ((size / 2 : ℕ) : ℤ) + (r : ℤ), none, some 0, 3⟩)

/-- The concentric-circles generator `create_circle_pattern(size)`: a
white `size × size` canvas on which the ellipse calls of `circleCmds`
are drawn in order. -/
def create_circle_pattern (size : ℕ) : PixelBuffer :=
  ⟨size, size,
    (circleCmds size).foldl
      (fun p c => ellipseF c.x0 c.y0 c.x1 c.y1 c.fill c.outline c.width p)
      (fun _ _ => 255)⟩

/-- The logo generator `create_test_logo(size)`: a white `size × size`
canvas with the seven fixed-coordinate strokes of the letters "EP"
(margin 10, P offset at margin + 35). -/
def create_test_logo (size : ℕ) : PixelBuffer :=
  ⟨size, size,
    ellipseF 55 10 80 40 none (some 0) 3
      (fillRectF 45 10 55 70 0
        (fillRectF 10 60 35 70 0
          (fillRectF 10 35 30 45 0
            (fillRectF 10 10 35 20 0
              (fillRectF 10 10 25 70 0
                (fun _ _ => 255))))))⟩

/-- The photo-like generator `create_photo_like(size)`: a mid-gray
canvas with sky, ground, house, triangular roof and two windows at the
coordinates computed in the source (Python integer arithmetic, embedded
in `ℤ`). -/
def create_photo_like (size : ℕ) : PixelBuffer :=
  let hx : ℤ := pyFloorDiv size 3
  let hy : ℤ := pyFloorDiv size 2 - 30
  let hw : ℤ := pyFloorDiv size 3
  ⟨size, size,
    fillRectF (hx + hw - 20) (hy + 10) (hx + hw - 10) (hy + 20) 150
      (fillRectF (hx + 10) (hy + 10) (hx + 20) (hy + 20) 150
        (triangleF (hx - 10) hy (hx + pyFloorDiv hw 2) (hy - 20) (hx + hw + 10) hy 30
          (fillRectF hx hy (hx + hw) (hy + 40) 50
            (fillRectF 0 (pyFloorDiv size 2) size size 100
              (fillRectF 0 0 size (pyFloorDiv size 2) 200
                (fun _ _ => 128))))))⟩

/-- A Pillow font object: either a TrueType font loaded from a path at
a given size, or the built-in bitmap font of `ImageFont.load_default()`. -/
inductive Font where
  | truetype (path : String) (fontSize : ℕ)
  | builtin

/-- The font path the script prefers. -/
def dejaVuPath : String :=
  "/usr/share/fonts/truetype/dejavu/DejaVuSans-Bold.ttf"

/-- Pillow `ImageFont.truetype(path, size)`: succeeds exactly when the font
resource is available, otherwise raises (here: returns an error).  The
availability of the external file is the boolean parameter. -/
def truetypeLoad (available : Bool) (path : String) (fontSize : ℕ) : Except String Font :=
  if available then Except.ok (Font.truetype path fontSize)
  else Except.error "cannot open resource"

/-- The try/except of `create_text_image`: use the TrueType font when
it loaded, otherwise fall back to `ImageFont.load_default()`.  The bare
`except` swallows every exception. -/
def pickFont (r : Except String Font) : Font :=
  match r with
  | Except.ok f => f
  | Except.error _ => Font.builtin

/-- The font `create_text_image` ends up drawing with, as a function of
whether the preferred font file is available. -/
def usedFont (fontAvailable : Bool) : Font :=
  pickFont (truetypeLoad fontAvailable dejaVuPath 24)

/-- The text generator `create_text_image(text, size)`.  Font metrics
(`draw.textbbox`) and glyph rasterization (`draw.text`) live inside
Pillow; they enter as the function parameters `textbbox` (returning the
left/top/right/bottom bounding box of the text) and `renderText`
(painting the glyphs at an anchor with a fill intensity).  The text is
centred with Python floor division, which can go negative, hence `ℤ`. -/
def create_text_image
    (textbbox : Font → String → ℤ × ℤ × ℤ × ℤ)
    (renderText : Font → String → ℤ → ℤ → ℕ → (ℕ → ℕ → ℕ) → ℕ → ℕ → ℕ)
    (fontAvailable : Bool) (text : String) (size : ℕ × ℕ) : PixelBuffer :=
  let font := usedFont fontAvailable
  let bbox := textbbox font text
  let textWidth : ℤ := bbox.2.2.1 - bbox.1
  let textHeight : ℤ := bbox.2.2.2 - bbox.2.1
  let x : ℤ := pyFloorDiv ((size.1 : ℤ) - textWidth) 2
  let y : ℤ := pyFloorDiv ((size.2 : ℤ) - textHeight) 2
  ⟨size.1, size.2, renderText font text x y 0 (fun _ _ => 255)⟩

/-- Reduction modulo `2 ^ 32`, the word size of the Mersenne Twister. -/
def mask32 (n : ℕ) : ℕ :=
  n % 4294967296

/-- The state of CPython's `random` module: the 624-word Mersenne
Twister array and the index of the next word to emit. -/
structure MTState where
  mt : Array ℕ
  idx : ℕ

/-- MT19937 `init_genrand`: expand a 32-bit seed into the 624-word
state array. -/
def initGenrand (s : ℕ) : Array ℕ :=
  (List.range 623).foldl
    (fun a i =>
      let prev := a.getD i 0
      a.push (mask32 (1812433253 * (prev ^^^ (prev >>> 30)) + (i + 1))))
    #[mask32 s]

/-- MT19937 `init_by_array`, the seeding CPython uses for integer
seeds: start from `init_genrand(19650218)`, mix the key words in over
624 steps, decimate over 623 further steps, then pin the top bit of
word 0. -/
def initByArray (key : List ℕ) : Array ℕ :=
  let a0 := initGenrand 19650218
  let s1 := (List.range 624).foldl
    (fun (st : Array ℕ × ℕ × ℕ) _ =>
      let a := st.1
      let i := st.2.1
      let j := st.2.2
      let prev := a.getD (i - 1) 0
      let v := mask32 ((a.getD i 0 ^^^ mask32 ((prev ^^^ (prev >>> 30)) * 1664525)) +
        key.getD j 0 + j)
      let a2 := a.set! i v
      let a3 := if i + 1 ≥ 624 then a2.set! 0 (a2.getD 623 0) else a2
      let i2 := if i + 1 ≥ 624 then 1 else i + 1
      let j2 := if j + 1 ≥ key.length then 0 else j + 1
      (a3, i2, j2))
    (a0, 1, 0)
  let s2 := (List.range 623).foldl
    (fun (st : Array ℕ × ℕ) _ =>
      let a := st.1
      let i := st.2
      let prev := a.getD (i - 1) 0
      let v := mask32 ((a.getD i 0 ^^^ mask32 ((prev ^^^ (prev >>> 30)) * 1566083941)) +
        (4294967296 - i))
      let a2 := a.set! i v
      let a3 := if i + 1 ≥ 624 then a2.set! 0 (a2.getD 623 0) else a2
      let i2 := if i + 1 ≥ 624 then 1 else i + 1
      (a3, i2))
    (s1.1, s1.2.1)
  s2.1.set! 0 2147483648

/-- CPython `random.seed(n)` for a 32-bit nonnegative integer seed: CPython
calls `init_by_array` with the key `[n]`, and the next word index is at
the end of the block, forcing a twist on the first draw. -/
def pythonSeed (n : ℕ) : MTState :=
  ⟨initByArray [n], 624⟩

/-- The MT19937 twist: regenerate the whole 624-word block in place. -/
def mtTwist (a : Array ℕ) : Array ℕ :=
  (List.range 624).foldl
    (fun a kk =>
      let y := (a.getD kk 0 &&& 2147483648) ||| (a.getD ((kk + 1) % 624) 0 &&& 2147483647)
      a.set! kk ((a.getD ((kk + 397) % 624) 0) ^^^ (y >>> 1) ^^^
        (if y % 2 = 1 then 2567483615 else 0)))
    a

/-- The MT19937 tempering of one raw state word. -/
def mtTemper (y : ℕ) : ℕ :=
  let y1 := y ^^^ (y >>> 11)
  let y2 := y1 ^^^ ((y1 <<< 7) &&& 2636928640)
  let y3 := y2 ^^^ ((y2 <<< 15) &&& 4022730752)
  y3 ^^^ (y3 >>> 18)

/-- Draw one 32-bit word: twist when the block is exhausted, then
temper the next word. -/
def genrand32 (g : MTState) : ℕ × MTState :=
  if g.idx ≥ 624 then
    let a := mtTwist g.mt
    (mtTemper (a.getD 0 0), ⟨a, 1⟩)
  else
    (mtTemper (g.mt.getD g.idx 0), ⟨g.mt, g.idx + 1⟩)

/-- CPython `random.random()`: two 32-bit draws `a` and `b` combine into the
53-bit dyadic rational `(a >> 5) * 2^26 + (b >> 6)` over `2^53`; every
such value is an exact double, so the embedding in `ℚ` is exact. -/
def randomRandom (g : MTState) : ℚ × MTState :=
  let r1 := genrand32 g
  let r2 := genrand32 r1.2
  (((((r1.1 >>> 5) * 67108864 + (r2.1 >>> 6) : ℕ) : ℚ) / 9007199254740992), r2.2)

/-- The QR-code-like generator `create_qr_code_like(size)`.  It reseeds
the global `random` state with the fixed seed 42, fills each cell of a
4-pixel grid black when `random.random() > 0.5`, then outlines three
12-pixel corner markers.  The ambient global RNG state `g0` is the
state the process happened to carry into the call; the function returns
the image together with the global state it leaves behind. -/
def create_qr_code_like (size : ℕ) (g0 : MTState) : PixelBuffer × MTState :=
  let seeded := pythonSeed 42
  let acc :=
    (pyRange 0 size 4).foldl
      (fun (st : (ℕ → ℕ → ℕ) × MTState) y =>
        (pyRange 0 size 4).foldl
          (fun (st : (ℕ → ℕ → ℕ) × MTState) x =>
            let r := randomRandom st.2
            if (1 : ℚ) / 2 < r.1 then
              (fillRectF x y ((x : ℤ) + 4 - 1) ((y : ℤ) + 4 - 1) 0 st.1, r.2)
            else (st.1, r.2))
          st)
      ((fun _ _ => 255), seeded)
  let corners : List (ℤ × ℤ) := [(0, 0), ((size : ℤ) - 12, 0), (0, (size : ℤ) - 12)]
  let p2 := corners.foldl
    (fun p c => outlineRectF c.1 c.2 (c.1 + 12) (c.2 + 12) 0 2 p) acc.1
  (⟨size, size, p2⟩, acc.2)

/-- A pattern descriptor: which synthetic image to produce, with its
parameters (the text variant also carries the external font-metric and
glyph-rasterizer capabilities). -/
inductive Descriptor where
  | checkerboard (size square_size : ℕ)
  | gradient (width height : ℕ) (direction : String)
  | circles (size : ℕ)
  | logo (size : ℕ)
  | photo (size : ℕ)
  | text (textbbox : Font → String → ℤ × ℤ × ℤ × ℤ)
      (renderText : Font → String → ℤ → ℤ → ℕ → (ℕ → ℕ → ℕ) → ℕ → ℕ → ℕ)
      (fontAvailable : Bool) (txt : String) (size : ℕ × ℕ)
  | qrLike (size : ℕ)

/-- Run one generation: dispatch on the descriptor.  The ambient global
RNG state is passed in, as a run of the script would carry it; only the
noise-grid variant touches it, and it reseeds first. -/
def generate (d : Descriptor) (g : MTState) : PixelBuffer :=
  match d with
  | Descriptor.checkerboard s q => create_checkerboard s q
  | Descriptor.gradient w h dir => create_gradient w h dir
  | Descriptor.circles s => create_circle_pattern s
  | Descriptor.logo s => create_test_logo s
  | Descriptor.photo s => create_photo_like s
  | Descriptor.text bb rt fa t s => create_text_image bb rt fa t s
  | Descriptor.qrLike s => (create_qr_code_like s g).1

/-! ### Properties of `pyRange` -/

theorem pyRange_length (start stop step : ℕ) :
    (pyRange start stop step).length = (stop - start + step - 1) / step := by
  simp [pyRange]

theorem lt_ceilDiv_iff {stop step : ℕ} (k : ℕ) (hs : 0 < step) :
    k < (stop + step - 1) / step ↔ k * step < stop := by
  rw [Nat.lt_iff_add_one_le, Nat.le_div_iff_mul_le hs, add_mul, one_mul]
  generalize k * step = m
  omega

theorem pyRange_zero_dvd {stop step x : ℕ} (h : x ∈ pyRange 0 stop step) : step ∣ x := by
  simp only [pyRange, List.mem_map, List.mem_range] at h
  obtain ⟨i, _, rfl⟩ := h
  exact ⟨i, by ring⟩

theorem mul_mem_pyRange_zero {stop step k : ℕ} (hs : 0 < step) :
    k * step ∈ pyRange 0 stop step ↔ k * step < stop := by
  simp only [pyRange, List.mem_map, List.mem_range, Nat.sub_zero, zero_add]
  constructor
  · rintro ⟨i, hi, he⟩
    rw [← he]
    exact (lt_ceilDiv_iff i hs).mp hi
  · intro hk
    exact ⟨k, (lt_ceilDiv_iff k hs).mpr hk, rfl⟩

/-! ### The checkerboard pixel formula -/

theorem div_eq_iff_between {sq a px : ℕ} (hsq : 0 < sq) :
    px / sq = a ↔ sq * a ≤ px ∧ px < sq * a + sq := by
  constructor
  · rintro rfl
    have h0 := Nat.div_add_mod px sq
    have h1 : px % sq < sq := Nat.mod_lt px hsq
    generalize sq * (px / sq) = m at h0 ⊢
    omega
  · rintro ⟨hlo, hhi⟩
    refine Nat.div_eq_of_lt_le (by rwa [mul_comm]) ?_
    rw [add_mul, one_mul, mul_comm]
    omega

theorem checker_cell_apply (sq x y : ℕ) (hsq : 0 < sq) (hx : sq ∣ x) (hy : sq ∣ y)
    (p : ℕ → ℕ → ℕ) (px py : ℕ) :
    (if (x / sq + y / sq) % 2 = 0 then
        fillRectF x y ((x : ℤ) + sq - 1) ((y : ℤ) + sq - 1) 0 p
      else p) px py
    = if px / sq = x / sq ∧ py / sq = y / sq ∧ (px / sq + py / sq) % 2 = 0 then 0
      else p px py := by
  obtain ⟨a, rfl⟩ := hx
  obtain ⟨b, rfl⟩ := hy
  rw [Nat.mul_div_cancel_left a hsq, Nat.mul_div_cancel_left b hsq]
  have hcond : (((sq * a : ℕ) : ℤ) ≤ (px : ℤ) ∧ (px : ℤ) ≤ ((sq * a : ℕ) : ℤ) + (sq : ℤ) - 1 ∧
      ((sq * b : ℕ) : ℤ) ≤ (py : ℤ) ∧ (py : ℤ) ≤ ((sq * b : ℕ) : ℤ) + (sq : ℤ) - 1)
      ↔ (px / sq = a ∧ py / sq = b) := by
    rw [div_eq_iff_between hsq, div_eq_iff_between hsq]
    generalize sq * a = m
    generalize sq * b = n
    omega
  by_cases hP : (a + b) % 2 = 0
  · rw [if_pos hP]
    simp only [fillRectF]
    rw [if_congr hcond rfl rfl]
    by_cases h1 : px / sq = a <;> by_cases h2 : py / sq = b
    · rw [if_pos ⟨h1, h2⟩, if_pos ⟨h1, h2, by rw [h1, h2]; exact hP⟩]
    · rw [if_neg (fun hc => h2 hc.2), if_neg (fun hc => h2 hc.2.1)]
    · rw [if_neg (fun hc => h1 hc.1), if_neg (fun hc => h1 hc.1)]
    · rw [if_neg (fun hc => h1 hc.1), if_neg (fun hc => h1 hc.1)]
  · rw [if_neg hP, if_neg (fun hc => hP (by rw [← hc.1, ← hc.2.1]; exact hc.2.2))]

theorem checker_row_fold (sq y : ℕ) (hsq : 0 < sq) (hy : sq ∣ y) (xs : List ℕ)
    (hxs : ∀ x ∈ xs, sq ∣ x) (p : ℕ → ℕ → ℕ) (px py : ℕ) :
    (xs.foldl
        (fun p x =>
          if (x / sq + y / sq) % 2 = 0 then
            fillRectF x y ((x : ℤ) + sq - 1) ((y : ℤ) + sq - 1) 0 p
          else p)
        p) px py
    = if px / sq * sq ∈ xs ∧ py / sq = y / sq ∧ (px / sq + py / sq) % 2 = 0 then 0
      else p px py := by
  induction xs generalizing p with
  | nil => simp
  | cons x xs ih =>
    rw [List.foldl_cons, ih (fun z hz => hxs z (List.mem_cons_of_mem x hz))]
    rw [checker_cell_apply sq x y hsq (hxs x (List.mem_cons_self x xs)) hy]
    have hx : px / sq = x / sq ↔ px / sq * sq = x := by
      obtain ⟨a, rfl⟩ := hxs x (List.mem_cons_self x xs)
      rw [Nat.mul_div_cancel_left a hsq]
      constructor
      · intro h
        rw [h, mul_comm]
      · intro h
        exact Nat.eq_of_mul_eq_mul_right hsq (by rw [h, mul_comm])
    simp only [List.mem_cons, ← hx]
    split_ifs <;> first | rfl | tauto

theorem checker_fold (sq : ℕ) (hsq : 0 < sq) (xs : List ℕ) (hxs : ∀ x ∈ xs, sq ∣ x)
    (ys : List ℕ) (hys : ∀ y ∈ ys, sq ∣ y) (p : ℕ → ℕ → ℕ) (px py : ℕ) :
    (ys.foldl
        (fun p y =>
          xs.foldl
            (fun p x =>
              if (x / sq + y / sq) % 2 = 0 then
                fillRectF x y ((x : ℤ) + sq - 1) ((y : ℤ) + sq - 1) 0 p
              else p)
            p)
        p) px py
    = if py / sq * sq ∈ ys ∧ px / sq * sq ∈ xs ∧ (px / sq + py / sq) % 2 = 0 then 0
      else p px py := by
  induction ys generalizing p with
  | nil => simp
  | cons y ys ih =>
    rw [List.foldl_cons, ih (fun z hz => hys z (List.mem_cons_of_mem y hz))]
    rw [checker_row_fold sq y hsq (hys y (List.mem_cons_self y ys)) xs hxs]
    have hyy : py / sq = y / sq ↔ py / sq * sq = y := by
      obtain ⟨b, rfl⟩ := hys y (List.mem_cons_self y ys)
      rw [Nat.mul_div_cancel_left b hsq]
      constructor
      · intro h
        rw [h, mul_comm]
      · intro h
        exact Nat.eq_of_mul_eq_mul_right hsq (by rw [h, mul_comm])
    simp only [List.mem_cons, ← hyy]
    split_ifs <;> first | rfl | tauto

theorem checkerboard_pix (size sq px py : ℕ) (hsq : 0 < sq) (hpx : px < size)
    (hpy : py < size) :
    (create_checkerboard size sq).pix px py
      = if (px / sq + py / sq) % 2 = 0 then 0 else 255 := by
  unfold create_checkerboard
  dsimp only
  rw [checker_fold sq hsq (pyRange 0 size sq) (fun x hx => pyRange_zero_dvd hx)
    (pyRange 0 size sq) (fun y hy => pyRange_zero_dvd hy)]
  have hmx : px / sq * sq ∈ pyRange 0 size sq :=
    (mul_mem_pyRange_zero hsq).mpr (lt_of_le_of_lt (Nat.div_mul_le_self px sq) hpx)
  have hmy : py / sq * sq ∈ pyRange 0 size sq :=
    (mul_mem_pyRange_zero hsq).mpr (lt_of_le_of_lt (Nat.div_mul_le_self py sq) hpy)
  simp [hmx, hmy]

/-! ### The gradient pixel formula

Truncating the exact ramp `(a / b) * 255` to an integer is natural-number
division `a * 255 / b`. -/

theorem pyInt_ratio (a b : ℕ) :
    (pyInt ((a : ℚ) / (b : ℚ) * 255)).toNat = a * 255 / b := by
  have hq : (0 : ℚ) ≤ (a : ℚ) / (b : ℚ) * 255 := by positivity
  rw [pyInt, if_neg (not_lt.mpr hq)]
  have he : (a : ℚ) / (b : ℚ) * 255 = ((a * 255 : ℕ) : ℚ) / ((b : ℕ) : ℚ) := by
    push_cast
    ring
  rw [he, Int.floor_toNat, Nat.floor_div_eq_div]

theorem gradient_pix_h (w h x y : ℕ) :
    (create_gradient w h "horizontal").pix x y = x * 255 / w := by
  show gradientValue w h "horizontal" x y = _
  rw [gradientValue, if_pos rfl, pyInt_ratio]

theorem gradient_pix_v (w h x y : ℕ) :
    (create_gradient w h "vertical").pix x y = y * 255 / h := by
  show gradientValue w h "vertical" x y = _
  rw [gradientValue, if_neg (by decide), if_pos rfl, pyInt_ratio]

theorem gradient_pix_other (w h x y : ℕ) (d : String) (h1 : d ≠ "horizontal")
    (h2 : d ≠ "vertical") :
    (create_gradient w h d).pix x y = (x + y) * 255 / (w + h) := by
  show gradientValue w h d x y = _
  rw [gradientValue, if_neg h1, if_neg h2]
  have hxy : (x : ℚ) + (y : ℚ) = ((x + y : ℕ) : ℚ) := by push_cast; ring
  have hwh : (w : ℚ) + (h : ℚ) = ((w + h : ℕ) : ℚ) := by push_cast; ring
  rw [hxy, hwh, pyInt_ratio]

/-! ### Claim theorems -/

/-- C1.  Checkerboard cells: for a canvas of side `size` partitioned into
cells of side `sq > 0`, the pixel at `(px, py)` inside the canvas is
black (0) exactly when its cell coordinates `(px / sq, py / sq)` have an
even sum, and white (255) otherwise; in particular the 64/8 board has
pixel `(0,0)` black and pixel `(8,0)` white. -/
theorem checkerboard_cell_parity :
    (∀ size sq px py, 0 < sq → px < size → py < size →
      (create_checkerboard size sq).pix px py
        = if (px / sq + py / sq) % 2 = 0 then 0 else 255) ∧
    (create_checkerboard 64 8).pix 0 0 = 0 ∧
    (create_checkerboard 64 8).pix 8 0 = 255 := by
  refine ⟨fun size sq px py hsq hx hy => checkerboard_pix size sq px py hsq hx hy, ?_, ?_⟩
  · have h := checkerboard_pix 64 8 0 0 (by norm_num) (by norm_num) (by norm_num)
    simpa using h
  · have h := checkerboard_pix 64 8 8 0 (by norm_num) (by norm_num) (by norm_num)
    simpa using h

theorem checkerboard_cell_parity_witness :
    (create_checkerboard 32 4).pix 0 0 = 0 ∧ (create_checkerboard 32 4).pix 4 0 = 255 := by
  constructor
  · have h := checkerboard_cell_parity.1 32 4 0 0 (by norm_num) (by norm_num) (by norm_num)
    simpa using h
  · have h := checkerboard_cell_parity.1 32 4 4 0 (by norm_num) (by norm_num) (by norm_num)
    simpa using h

/-- C2.  Gradient ramp: for positive dimensions, the pixel at `(x, y)`
is the linear ramp of the chosen axis scaled to 255 and truncated to an
integer — exactly `x * 255 / w` horizontally, `y * 255 / h` vertically,
`(x + y) * 255 / (w + h)` diagonally (natural division is truncation of
the exact ratio). -/
theorem gradient_ramp_formula (w h x y : ℕ) (hw : 0 < w) (hh : 0 < h) :
    (create_gradient w h "horizontal").pix x y = x * 255 / w ∧
    (create_gradient w h "vertical").pix x y = y * 255 / h ∧
    (create_gradient w h "diagonal").pix x y = (x + y) * 255 / (w + h) :=
  ⟨gradient_pix_h w h x y, gradient_pix_v w h x y,
    gradient_pix_other w h x y "diagonal" (by decide) (by decide)⟩

theorem gradient_ramp_formula_witness :
    (create_gradient 128 64 "horizontal").pix 37 12 = 73 ∧
    (create_gradient 128 64 "vertical").pix 37 12 = 47 ∧
    (create_gradient 128 64 "diagonal").pix 37 12 = 65 := by
  obtain ⟨h1, h2, h3⟩ := gradient_ramp_formula 128 64 37 12 (by norm_num) (by norm_num)
  refine ⟨?_, ?_, ?_⟩
  · rw [h1]
  · rw [h2]
  · rw [h3]

/-- C3 (counterexample).  The rightmost column of the 128×64 horizontal
gradient is not 254: `int((127 / 128) * 255)` is 253. -/
theorem gradient_edge_value_not_254 :
    ¬ (create_gradient 128 64 "horizontal").pix 127 0 = 254 := by
  rw [gradient_pix_h]
  norm_num

/-- C3 (amended).  `create_gradient(128, 64, 'horizontal')`: for every
row `y < 64`, pixel `(0, y)` is 0 and pixel `(127, y)` is exactly 253
(one below the 254 the spec approximates). -/
theorem gradient_128x64_horizontal_edges (y : ℕ) (hy : y < 64) :
    (create_gradient 128 64 "horizontal").pix 0 y = 0 ∧
    (create_gradient 128 64 "horizontal").pix 127 y = 253 := by
  constructor
  · rw [gradient_pix_h]
  · rw [gradient_pix_h]

theorem gradient_128x64_horizontal_edges_witness :
    (create_gradient 128 64 "horizontal").pix 0 63 = 0 ∧
    (create_gradient 128 64 "horizontal").pix 127 63 = 253 :=
  gradient_128x64_horizontal_edges 63 (by norm_num)

/-- C4.  Determinism: the buffer produced by `generate` does not depend
on the ambient global RNG state — the noise-grid variant reseeds with
the fixed seed 42 before drawing — so two runs on the same descriptor
produce bit-identical buffers. -/
theorem generate_deterministic (d : Descriptor) (g1 g2 : MTState) :
    generate d g1 = generate d g2 := by
  cases d <;> rfl

/-- C5.  Gradient monotonicity: intensities are non-decreasing along the
chosen axis — with `x` on a fixed row for `'horizontal'`, with `y` on a
fixed column for `'vertical'`, and with `x + y` for `'diagonal'`. -/
theorem gradient_monotone :
    (∀ w h y x1 x2, 0 < w → 0 < h → x1 ≤ x2 →
      (create_gradient w h "horizontal").pix x1 y
        ≤ (create_gradient w h "horizontal").pix x2 y) ∧
    (∀ w h x y1 y2, 0 < w → 0 < h → y1 ≤ y2 →
      (create_gradient w h "vertical").pix x y1
        ≤ (create_gradient w h "vertical").pix x y2) ∧
    (∀ w h x1 y1 x2 y2, 0 < w → 0 < h → x1 + y1 ≤ x2 + y2 →
      (create_gradient w h "diagonal").pix x1 y1
        ≤ (create_gradient w h "diagonal").pix x2 y2) := by
  refine ⟨fun w h y x1 x2 _ _ hx => ?_, fun w h x y1 y2 _ _ hy => ?_,
    fun w h x1 y1 x2 y2 _ _ hxy => ?_⟩
  · rw [gradient_pix_h, gradient_pix_h]
    exact Nat.div_le_div_right (Nat.mul_le_mul_right 255 hx)
  · rw [gradient_pix_v, gradient_pix_v]
    exact Nat.div_le_div_right (Nat.mul_le_mul_right 255 hy)
  · rw [gradient_pix_other w h x1 y1 "diagonal" (by decide) (by decide),
      gradient_pix_other w h x2 y2 "diagonal" (by decide) (by decide)]
    exact Nat.div_le_div_right (Nat.mul_le_mul_right 255 hxy)

theorem gradient_monotone_witness :
    (create_gradient 128 64 "horizontal").pix 3 0
      ≤ (create_gradient 128 64 "horizontal").pix 100 0 :=
  gradient_monotone.1 128 64 0 3 100 (by norm_num) (by norm_num) (by norm_num)

/-- C6.  Every generator returns a buffer whose dimensions are exactly
the requested width and height (the requested side in both dimensions
for the square patterns). -/
theorem generated_dimensions :
    (∀ size sq, (create_checkerboard size sq).width = size ∧
      (create_checkerboard size sq).height = size) ∧
    (∀ w h d, (create_gradient w h d).width = w ∧ (create_gradient w h d).height = h) ∧
    (∀ size, (create_circle_pattern size).width = size ∧
      (create_circle_pattern size).height = size) ∧
    (∀ size, (create_test_logo size).width = size ∧ (create_test_logo size).height = size) ∧
    (∀ size, (create_photo_like size).width = size ∧ (create_photo_like size).height = size) ∧
    (∀ bb rt (fa : Bool) (t : String) (s : ℕ × ℕ),
      (create_text_image bb rt fa t s).width = s.1 ∧
      (create_text_image bb rt fa t s).height = s.2) ∧
    (∀ size g, ((create_qr_code_like size g).1).width = size ∧
      ((create_qr_code_like size g).1).height = size) :=
  ⟨fun _ _ => ⟨rfl, rfl⟩, fun _ _ _ => ⟨rfl, rfl⟩, fun _ => ⟨rfl, rfl⟩, fun _ => ⟨rfl, rfl⟩,
    fun _ => ⟨rfl, rfl⟩, fun _ _ _ _ _ => ⟨rfl, rfl⟩, fun _ _ => ⟨rfl, rfl⟩⟩

/-- C7.  Text generation never fails on a missing font: loading the
preferred TrueType font raises when the resource is unavailable, the
`try/except` falls back to the built-in font, and for every metric and
rasterizer capability the call still returns a buffer of the requested
size — no error propagates. -/
theorem text_font_fallback :
    (∃ e, truetypeLoad false dejaVuPath 24 = Except.error e) ∧
    usedFont false = Font.builtin ∧
    usedFont true = Font.truetype dejaVuPath 24 ∧
    (∀ bb rt (t : String) (s : ℕ × ℕ) (fa : Bool),
      (create_text_image bb rt fa t s).width = s.1 ∧
      (create_text_image bb rt fa t s).height = s.2) :=
  ⟨⟨"cannot open resource", rfl⟩, rfl, rfl, fun _ _ _ _ _ => ⟨rfl, rfl⟩⟩

/-- C8.  Concentric circles: every `draw.ellipse` call issued by
`create_circle_pattern(size)` has no fill, black outline and stroke
width 3, its bounding box is centred on `(size / 2, size / 2)`, and the
`i`-th circle has radius `5 + 10 * i` — radii increase from 5 with a
fixed step of 10. -/
theorem circle_pattern_calls (size i : ℕ) (c : EllipseCmd)
    (hc : (circleCmds size)[i]? = some c) :
    c.fill = none ∧ c.outline = some 0 ∧ c.width = 3 ∧
    c.x0 + c.x1 = 2 * ((size / 2 : ℕ) : ℤ) ∧ c.y0 + c.y1 = 2 * ((size / 2 : ℕ) : ℤ) ∧
    c.x1 - c.x0 = 2 * (5 + 10 * (i : ℤ)) ∧ c.y1 - c.y0 = 2 * (5 + 10 * (i : ℤ)) := by
  rw [circleCmds, pyRange, List.getElem?_map, List.getElem?_map] at hc
  by_cases hi : i < (size / 2 - 5 + 10 - 1) / 10
  · rw [List.getElem?_range hi] at hc
    simp only [Option.map_some'] at hc
    obtain rfl := Option.some.inj hc
    refine ⟨rfl, rfl, rfl, by push_cast; ring, by push_cast; ring, by push_cast; ring,
      by push_cast; ring⟩
  · rw [List.getElem?_eq_none (by simpa using hi)] at hc
    simp at hc

theorem circle_pattern_calls_witness :
    (circleCmds 100)[2]? = some ⟨25, 25, 75, 75, none, some 0, 3⟩ ∧
    ((⟨25, 25, 75, 75, none, some 0, 3⟩ : EllipseCmd).fill = none ∧
      (⟨25, 25, 75, 75, none, some 0, 3⟩ : EllipseCmd).outline = some 0 ∧
      (⟨25, 25, 75, 75, none, some 0, 3⟩ : EllipseCmd).width = 3 ∧
      (⟨25, 25, 75, 75, none, some 0, 3⟩ : EllipseCmd).x0 +
        (⟨25, 25, 75, 75, none, some 0, 3⟩ : EllipseCmd).x1 = 2 * ((100 / 2 : ℕ) : ℤ) ∧
      (⟨25, 25, 75, 75, none, some 0, 3⟩ : EllipseCmd).y0 +
        (⟨25, 25, 75, 75, none, some 0, 3⟩ : EllipseCmd).y1 = 2 * ((100 / 2 : ℕ) : ℤ) ∧
      (⟨25, 25, 75, 75, none, some 0, 3⟩ : EllipseCmd).x1 -
        (⟨25, 25, 75, 75, none, some 0, 3⟩ : EllipseCmd).x0 = 2 * (5 + 10 * ((2 : ℕ) : ℤ)) ∧
      (⟨25, 25, 75, 75, none, some 0, 3⟩ : EllipseCmd).y1 -
        (⟨25, 25, 75, 75, none, some 0, 3⟩ : EllipseCmd).y0 = 2 * (5 + 10 * ((2 : ℕ) : ℤ))) := by
  have hc : (circleCmds 100)[2]? = some ⟨25, 25, 75, 75, none, some 0, 3⟩ := by decide
  exact ⟨hc, circle_pattern_calls 100 2 _ hc⟩

/-- C9.  Any direction string other than `'horizontal'` and
`'vertical'` falls into the `else` branch: the produced buffer is the
diagonal gradient, identical to the one for `'diagonal'`. -/
theorem gradient_default_direction (w h : ℕ) (d : String)
    (h1 : d ≠ "horizontal") (h2 : d ≠ "vertical") :
    create_gradient w h d = create_gradient w h "diagonal" := by
  unfold create_gradient
  congr 1
  funext x y
  rw [gradientValue, gradientValue, if_neg h1, if_neg h2, if_neg (by decide), if_neg (by decide)]

theorem gradient_default_direction_witness :
    create_gradient 128 64 "diag" = create_gradient 128 64 "diagonal" :=
  gradient_default_direction 128 64 "diag" (by decide) (by decide)

/-- C10.  For positive dimensions, every in-range gradient pixel is at
most 254 whatever the direction string: the ramp fraction is strictly
below 1, so the truncated value never reaches full white 255. -/
theorem gradient_bounded (w h : ℕ) (d : String) (x y : ℕ)
    (hw : 0 < w) (hh : 0 < h) (hx : x < w) (hy : y < h) :
    (create_gradient w h d).pix x y ≤ 254 := by
  by_cases h1 : d = "horizontal"
  · subst h1
    rw [gradient_pix_h]
    have hlt : x * 255 / w < 255 := by
      rw [Nat.div_lt_iff_lt_mul hw, mul_comm 255 w]
      exact (Nat.mul_lt_mul_right (by norm_num)).mpr hx
    omega
  · by_cases h2 : d = "vertical"
    · subst h2
      rw [gradient_pix_v]
      have hlt : y * 255 / h < 255 := by
        rw [Nat.div_lt_iff_lt_mul hh, mul_comm 255 h]
        exact (Nat.mul_lt_mul_right (by norm_num)).mpr hy
      omega
    · rw [gradient_pix_other w h x y d h1 h2]
      have hlt : (x + y) * 255 / (w + h) < 255 := by
        rw [Nat.div_lt_iff_lt_mul (by omega), mul_comm 255 (w + h)]
        exact (Nat.mul_lt_mul_right (by norm_num)).mpr (by omega)
      omega

theorem gradient_bounded_witness :
    (create_gradient 128 64 "diagonal").pix 127 63 ≤ 254 :=
  gradient_bounded 128 64 "diagonal" 127 63 (by norm_num) (by norm_num) (by norm_num)
    (by norm_num)

end EPaper
